import Mathlib

/-!
Verification of the Waggle packet codec (`src/utils/packet.py`).

Shallow embedding conventions:
* Python strings are modelled as lists of character codepoints (`List Nat`);
  for byte strings every element is below 256.
* The `crcmod` predefined functions `crc-32` (poly 0x104C11DB7 reflected,
  init 0xFFFFFFFF, xorout 0xFFFFFFFF) and `crc-16` (CRC-16/ARC, poly 0x18005
  reflected, init 0, xorout 0) are embedded by their standard reflected
  bit-at-a-time definition, which coincides with the table-driven one.
* Python exceptions become `Except`: `KeyError` in `pack_header` carries the
  name of the missing dictionary entry; the errors of `unpack` become the
  inductive `PacketError`.
* The module-global `SEQUENCE` counter and the timestamp captured by
  `pack` are passed explicitly; `pack` returns the emitted packets together
  with the final value of `SEQUENCE`.
-/

namespace Packet

/-- `HEADER_LENGTH` from the source: the header is always 40 bytes. -/
def HEADER_LENGTH : Nat := 40

/-- `FOOTER_LENGTH` from the source: 4-byte CRC-32 footer. -/
def FOOTER_LENGTH : Nat := 4

/-- `MAX_SEQ_NUMBER = pow(2, 8 * HEADER_BYTELENGTHS["snd_seq"]) = 2 ^ 24`. -/
def MAX_SEQ_NUMBER : Nat := 2 ^ 24

/-- `MAX_PACKET_SIZE` from the source. -/
def MAX_PACKET_SIZE : Nat := 1024

/-- `VERSION = "0.3"` as codepoints. -/
def VERSION : List Nat := [48, 46, 51]

/-- Header field names, as used by the source's `HEADER_LOCATIONS` and
`HEADER_BYTELENGTHS` dictionaries. -/
inductive FieldName
  | prot_ver | flags | len_body | time | msg_mj_type | msg_mi_type
  | snd_session | s_uniqid | ext_header | resp_session | r_uniqid
  | snd_seq | resp_seq | crc16
deriving Repr, DecidableEq

/-- The source's `HEADER_LOCATIONS` dictionary: the byte offset at which the
module declares each header field to be stored. -/
def HEADER_LOCATIONS : FieldName → Nat
  | .prot_ver => 0
  | .flags => 1
  | .len_body => 2
  | .time => 4
  | .msg_mj_type => 8
  | .msg_mi_type => 9
  | .snd_session => 10
  | .s_uniqid => 12
  | .ext_header => 20
  | .resp_session => 22
  | .r_uniqid => 24
  | .snd_seq => 32
  | .resp_seq => 35
  | .crc16 => 38

/-- The source's `HEADER_BYTELENGTHS` dictionary. -/
def HEADER_BYTELENGTHS : FieldName → Nat
  | .prot_ver => 1
  | .flags => 1
  | .len_body => 2
  | .time => 4
  | .msg_mj_type => 1
  | .msg_mi_type => 1
  | .snd_session => 2
  | .s_uniqid => 8
  | .ext_header => 2
  | .resp_session => 2
  | .r_uniqid => 8
  | .snd_seq => 3
  | .resp_seq => 3
  | .crc16 => 2

/-! ## CRC functions (`crcmod` predefined `crc-32` and `crc-16`) -/

/-- One bit step of a reflected CRC with polynomial `P`:
shift right, conditionally XORing in the polynomial. -/
def crcBit (P c : Nat) : Nat :=
  if c &&& 1 = 1 then (c >>> 1) ^^^ P else c >>> 1

/-- Eight bit steps of a reflected CRC. -/
def crcBits8 (P x : Nat) : Nat :=
  crcBit P (crcBit P (crcBit P (crcBit P
    (crcBit P (crcBit P (crcBit P (crcBit P x)))))))

/-- One byte step of a reflected CRC: XOR the byte into the low bits of the
running state, then process 8 bits. For byte values below 256 this is
exactly the table-driven step `(c >>> 8) ^^^ table[(c ^^^ b) &&& 0xff]`. -/
def crcByte (P c b : Nat) : Nat :=
  crcBits8 P (c ^^^ b)

/-- Run the CRC state over a byte list. -/
def crcFold (P c : Nat) (data : List Nat) : Nat :=
  data.foldl (crcByte P) c

/-- Reflected CRC-32 polynomial (0x04C11DB7 bit-reversed). -/
def CRC32_POLY : Nat := 0xEDB88320

/-- Reflected CRC-16/ARC polynomial (0x8005 bit-reversed). -/
def CRC16_POLY : Nat := 0xA001

/-- `crc32fun = mkCrcFun('crc-32')`: init 0xFFFFFFFF, xorout 0xFFFFFFFF. -/
def crc32fun (data : List Nat) : Nat :=
  crcFold CRC32_POLY 0xFFFFFFFF data ^^^ 0xFFFFFFFF

/-- `crc16fun = mkCrcFun('crc-16')` (CRC-16/ARC): init 0, xorout 0. -/
def crc16fun (data : List Nat) : Nat :=
  crcFold CRC16_POLY 0 data

/-! ## Integer packing helpers -/

/-- `bin_pack(n, size)` from the source: big-endian encoding of `n` into
`size` bytes, each byte masked with 0xff. -/
def bin_pack (n : Nat) : Nat → List Nat
  | 0 => []
  | s + 1 => ((n >>> (s * 8)) &&& 0xff) :: bin_pack n s

/-- `_bin_unpack(string)` from the source: big-endian integer read,
ORing `ord(string[-i]) << (i-1)*8` over all positions. -/
def _bin_unpack : List Nat → Nat
  | [] => 0
  | b :: rest => (b <<< (rest.length * 8)) ||| _bin_unpack rest

/-! ## Version and flags fields -/

/-- Decimal digit codepoints of `n` (Python `str(n)`), with explicit fuel;
the fuel `n + 1` of `natStr` always suffices. -/
def decRepr : Nat → Nat → List Nat
  | 0, _ => []
  | fuel + 1, n =>
    if n < 10 then [48 + n] else decRepr fuel (n / 10) ++ [48 + n % 10]

/-- Python `str(n)` for a natural number, as codepoints. -/
def natStr (n : Nat) : List Nat := decRepr (n + 1) n

/-- Python `s.split(".")` on codepoint lists (46 is the dot). -/
def splitDots : List Nat → List (List Nat)
  | [] => [[]]
  | c :: rest =>
    if c = 46 then [] :: splitDots rest
    else
      match splitDots rest with
      | [] => [[c]]
      | g :: gs => (c :: g) :: gs

/-- Python `int(s)` on a list of decimal digit codepoints. -/
def decVal (s : List Nat) : Nat :=
  s.foldl (fun a c => a * 10 + (c - 48)) 0

/-- `_pack_version(version)`: split on the dot and emit
`chr((major << 4) | (0xf & minor))`.  (On a well-formed "major.minor"
string this matches the source; the source would raise on inputs without
a dot or with non-numeric parts, which no claim exercises.) -/
def _pack_version (version : List Nat) : List Nat :=
  let versions := splitDots version
  let major := decVal (versions.getD 0 [])
  let minor := decVal (versions.getD 1 [])
  [(major <<< 4) ||| (0xf &&& minor)]

/-- `_unpack_version(version)`: `v = ord(version)`, `major = v & 0xf0`
(not right-shifted), `minor = v & 0x0f`, rendered `str(major)+"."+str(minor)`. -/
def _unpack_version (version : List Nat) : List Nat :=
  let v := version.getD 0 0
  let major := v &&& 0xf0
  let minor := v &&& 0x0f
  natStr major ++ [46] ++ natStr minor

/-- `_pack_flags(flags)`: `chr((a << 5) | (b << 2) | (f << 1))`.
Note `chr` does not truncate: the single emitted codepoint keeps all bits. -/
def _pack_flags (flags : Nat × Nat × Bool) : List Nat :=
  [(flags.1 <<< 5) ||| (flags.2.1 <<< 2) ||| ((if flags.2.2 then 1 else 0) <<< 1)]

/-- `_unpack_flags(flagByte)`. -/
def _unpack_flags (flagByte : List Nat) : Nat × Nat × Bool :=
  let b := flagByte.getD 0 0
  ((b &&& 0xe0) >>> 5, (b &&& 0x1c) >>> 2, ((b &&& 0x02) >>> 1) == 1)

/-! ## Header dictionaries -/

/-- The caller-facing header dictionary: each key optionally present. -/
structure HeaderMap where
  prot_ver : Option (List Nat) := none
  flags : Option (Nat × Nat × Bool) := none
  len_body : Option Nat := none
  time : Option Nat := none
  msg_mj_type : Option Nat := none
  msg_mi_type : Option Nat := none
  snd_session : Option Nat := none
  s_uniqid : Option Nat := none
  ext_header : Option Nat := none
  resp_session : Option Nat := none
  r_uniqid : Option Nat := none
  snd_seq : Option Nat := none
  resp_seq : Option Nat := none
deriving Repr, DecidableEq

/-- The decoded header dictionary returned by `_unpack_header`. -/
structure HeaderFields where
  prot_ver : List Nat
  flags : Nat × Nat × Bool
  len_body : Nat
  time : Nat
  msg_mj_type : Nat
  msg_mi_type : Nat
  ext_header : Nat
  s_uniqid : Nat
  r_uniqid : Nat
  snd_session : Nat
  resp_session : Nat
  snd_seq : Nat
  resp_seq : Nat
deriving Repr, DecidableEq

/-- The errors `unpack`, `_unpack_header` and `get_header` can raise. -/
inductive PacketError
  /-- `IOError("Packet body CRC-32 failed.")` -/
  | bodyCRC
  /-- `IndexError`: tried to unpack a header that was `got` instead of 40
  bytes long. -/
  | headerLength (got : Nat)
  /-- `IOError("Header CRC-16 check failed")` -/
  | headerCRC
deriving Repr, DecidableEq

/-- `pack_header(header_data)` from the source: serialize the fields in the
source's concatenation order, appending the CRC-16 of the first 38 bytes.
A missing dictionary entry raises `KeyError` with that entry's name; the
fields are accessed in exactly the source's order. -/
def pack_header (h : HeaderMap) : Except String (List Nat) :=
  match h.prot_ver with
  | none => .error "prot_ver"
  | some ver =>
  match h.flags with
  | none => .error "flags"
  | some fl =>
  match h.len_body with
  | none => .error "len_body"
  | some lb =>
  match h.time with
  | none => .error "time"
  | some tm =>
  match h.msg_mj_type with
  | none => .error "msg_mj_type"
  | some mj =>
  match h.msg_mi_type with
  | none => .error "msg_mi_type"
  | some mi =>
  match h.ext_header with
  | none => .error "ext_header"
  | some exh =>
  match h.s_uniqid with
  | none => .error "s_uniqid"
  | some su =>
  match h.r_uniqid with
  | none => .error "r_uniqid"
  | some ru =>
  match h.snd_session with
  | none => .error "snd_session"
  | some ss =>
  match h.resp_session with
  | none => .error "resp_session"
  | some rs =>
  match h.snd_seq with
  | none => .error "snd_seq"
  | some sq =>
  match h.resp_seq with
  | none => .error "resp_seq"
  | some rq =>
    let hdr := _pack_version ver ++ _pack_flags fl
      ++ bin_pack lb 2 ++ bin_pack tm 4 ++ bin_pack mj 1 ++ bin_pack mi 1
      ++ bin_pack exh 2 ++ bin_pack su 8 ++ bin_pack ru 8
      ++ bin_pack ss 2 ++ bin_pack rs 2 ++ bin_pack sq 3 ++ bin_pack rq 3
    .ok (hdr ++ bin_pack (crc16fun hdr) 2)

/-- `_unpack_header(packed_header)` from the source: check the length is
exactly 40, check the CRC-16 of `packed_header[:-2]` against the two bytes
stored at offset 38, then read the fields back sequentially (in the same
order `pack_header` wrote them). -/
def _unpack_header (ph : List Nat) : Except PacketError HeaderFields :=
  if ph.length ≠ HEADER_LENGTH then
    .error (.headerLength ph.length)
  else if crc16fun (ph.take (ph.length - 2)) ≠ _bin_unpack ((ph.drop 38).take 2) then
    .error .headerCRC
  else
    .ok {
      prot_ver := _unpack_version (ph.take 1)
      flags := _unpack_flags ((ph.drop 1).take 1)
      len_body := _bin_unpack ((ph.drop 2).take 2)
      time := _bin_unpack ((ph.drop 4).take 4)
      msg_mj_type := _bin_unpack ((ph.drop 8).take 1)
      msg_mi_type := _bin_unpack ((ph.drop 9).take 1)
      ext_header := _bin_unpack ((ph.drop 10).take 2)
      s_uniqid := _bin_unpack ((ph.drop 12).take 8)
      r_uniqid := _bin_unpack ((ph.drop 20).take 8)
      snd_session := _bin_unpack ((ph.drop 28).take 2)
      resp_session := _bin_unpack ((ph.drop 30).take 2)
      snd_seq := _bin_unpack ((ph.drop 32).take 3)
      resp_seq := _bin_unpack ((ph.drop 35).take 3) }

/-- Python slice `packet[HEADER_LENGTH:-FOOTER_LENGTH]` (the body part). -/
def midSlice (packet : List Nat) : List Nat :=
  (packet.take (packet.length - FOOTER_LENGTH)).drop HEADER_LENGTH

/-- Python slice `packet[-FOOTER_LENGTH:]` (the CRC-32 footer). -/
def footSlice (packet : List Nat) : List Nat :=
  packet.drop (packet.length - FOOTER_LENGTH)

/-- `unpack(packet)` from the source: first the body CRC-32 check (there is
no packet-length precheck), then `_unpack_header` on the first 40 bytes. -/
def unpack (packet : List Nat) : Except PacketError (HeaderFields × List Nat) :=
  if crc32fun (midSlice packet) ≠ _bin_unpack (footSlice packet) then
    .error .bodyCRC
  else
    match _unpack_header (packet.take HEADER_LENGTH) with
    | .error e => .error e
    | .ok header => .ok (header, midSlice packet)

/-- `get_header(packet)` from the source: `_unpack_header(packet[:40])`. -/
def get_header (packet : List Nat) : Except PacketError HeaderFields :=
  _unpack_header (packet.take HEADER_LENGTH)

/-- The `auto_header` dictionary built inside `pack`, updated with the
caller's entries (`auto_header.update(header_data)`): a caller-supplied
value wins, otherwise the default is used.  `msg_mj_type` and
`msg_mi_type` have no default. -/
def autoHeader (SEQUENCE now bodyLen : Nat) (user : HeaderMap) : HeaderMap where
  prot_ver := some (user.prot_ver.getD VERSION)
  flags := some (user.flags.getD (1, 1, true))
  len_body := some (user.len_body.getD bodyLen)
  time := some (user.time.getD now)
  msg_mj_type := user.msg_mj_type
  msg_mi_type := user.msg_mi_type
  snd_session := some (user.snd_session.getD 0)
  s_uniqid := some (user.s_uniqid.getD 0)
  ext_header := some (user.ext_header.getD 0)
  resp_session := some (user.resp_session.getD 0)
  r_uniqid := some (user.r_uniqid.getD 0)
  snd_seq := some (user.snd_seq.getD SEQUENCE)
  resp_seq := some (user.resp_seq.getD 0)

/-- The multi-packet loop of `pack` (the `while length > MAX_PACKET_SIZE`
loop followed by the final `if length > 0` block).  `rest` is the unread
part of the stream and `length` the loop's length variable; the fuel is
only a termination device (callers pass `length`, which always suffices
since each iteration consumes at least 1024).  `pack_header` is re-invoked
for every fragment, exactly as in the source; note the loop never changes
the `auto` dictionary, so every fragment gets the same header bytes while
only the global `SEQUENCE` advances. -/
def packMulti (auto : HeaderMap) :
    Nat → Nat → Nat → List Nat → Nat → Except String (List (List Nat) × Nat)
  | 0, SEQUENCE, _, _, _ => .ok ([], SEQUENCE)
  | fuel + 1, SEQUENCE, packetNum, rest, length =>
    if MAX_PACKET_SIZE < length then
      match pack_header auto with
      | .error e => .error e
      | .ok header =>
        let msg := bin_pack packetNum 4 ++ rest.take MAX_PACKET_SIZE
        match packMulti auto fuel ((SEQUENCE + 1) % MAX_SEQ_NUMBER) (packetNum + 1)
            (rest.drop MAX_PACKET_SIZE) (length - MAX_PACKET_SIZE) with
        | .error e => .error e
        | .ok (pkts, S) =>
          .ok ((header ++ msg ++ bin_pack (crc32fun msg) FOOTER_LENGTH) :: pkts, S)
    else if 0 < length then
      match pack_header auto with
      | .error e => .error e
      | .ok header =>
        let msg := bin_pack packetNum 4 ++ rest.take MAX_PACKET_SIZE
        .ok ([header ++ msg ++ bin_pack (crc32fun msg) FOOTER_LENGTH],
          (SEQUENCE + 1) % MAX_SEQ_NUMBER)
    else .ok ([], SEQUENCE)

/-- `pack(header_data, message_data)` from the source.  `SEQUENCE` is the
module-global counter at entry and `now` the timestamp captured once; the
result carries the emitted packets and the final counter value.  A body
shorter than `MAX_PACKET_SIZE` is emitted as a single packet; otherwise
the body is chunked by the multi-packet loop. -/
def pack (SEQUENCE now : Nat) (header_data : HeaderMap) (message_data : List Nat) :
    Except String (List (List Nat) × Nat) :=
  let auto := autoHeader SEQUENCE now message_data.length header_data
  if message_data.length < MAX_PACKET_SIZE then
    match pack_header auto with
    | .error e => .error e
    | .ok header =>
      .ok ([header ++ message_data ++ bin_pack (crc32fun message_data) FOOTER_LENGTH],
        (SEQUENCE + 1) % MAX_SEQ_NUMBER)
  else
    packMulti auto message_data.length SEQUENCE 0 message_data message_data.length

/-- A header dictionary carrying only the two message-type entries. -/
def onlyTypes (mj mi : Nat) : HeaderMap :=
  { msg_mj_type := some mj, msg_mi_type := some mi }

/-- A "major.minor" version string, as codepoints. -/
def verString (a b : Nat) : List Nat :=
  natStr a ++ 46 :: natStr b

/-- A header dictionary supplying every required field. -/
def fullMap (ver : List Nat) (fl : Nat × Nat × Bool)
    (lb tm mj mi ss su exh rs ru sq rq : Nat) : HeaderMap where
  prot_ver := some ver
  flags := some fl
  len_body := some lb
  time := some tm
  msg_mj_type := some mj
  msg_mi_type := some mi
  snd_session := some ss
  s_uniqid := some su
  ext_header := some exh
  resp_session := some rs
  r_uniqid := some ru
  snd_seq := some sq
  resp_seq := some rq

/-- The first 38 header bytes in `pack_header`'s concatenation order. -/
def headerBytes (ver : List Nat) (fl : Nat × Nat × Bool)
    (lb tm mj mi ss su exh rs ru sq rq : Nat) : List Nat :=
  _pack_version ver ++ _pack_flags fl
    ++ bin_pack lb 2 ++ bin_pack tm 4 ++ bin_pack mj 1 ++ bin_pack mi 1
    ++ bin_pack exh 2 ++ bin_pack su 8 ++ bin_pack ru 8
    ++ bin_pack ss 2 ++ bin_pack rs 2 ++ bin_pack sq 3 ++ bin_pack rq 3

/-- The header dictionary exhibiting the layout divergence of claim C4:
distinctive values for `snd_session` (0xAAAA), `ext_header` (0xBBBB)
and `r_uniqid` (0x1122334455667788). -/
def c4Header : HeaderMap :=
  fullMap VERSION (1, 1, true) 0 0 1 2 0xAAAA 0 0xBBBB 0 0x1122334455667788 0 0

/-- View of a `pack` result keeping, per packet, only the three header
bytes at offset 32 (the `snd_seq` field), together with the final value of
the sequence counter. -/
def sndSeqView (r : Except String (List (List Nat) × Nat)) :
    Option (List (List Nat) × Nat) :=
  match r with
  | .error _ => none
  | .ok (ps, s) => some (ps.map (fun p => (p.drop 32).take 3), s)

/-!
## Lemmas: bitwise XOR algebra

These support the CRC error-detection arguments: the byte step of a
reflected CRC is GF(2)-linear, and on states below the width bound its
difference propagation has trivial kernel.
-/

theorem xor_rearrange (x y P : Nat) : (x ^^^ P) ^^^ (y ^^^ P) = x ^^^ y := by
  apply Nat.eq_of_testBit_eq
  intro i
  simp only [Nat.testBit_xor]
  cases x.testBit i <;> cases y.testBit i <;> cases P.testBit i <;> rfl

theorem xor_shiftRight_distrib (a b k : Nat) :
    (a ^^^ b) >>> k = (a >>> k) ^^^ (b >>> k) := by
  apply Nat.eq_of_testBit_eq
  intro i
  simp [Nat.testBit_shiftRight, Nat.testBit_xor]

theorem xor_and_distrib (a b m : Nat) :
    (a ^^^ b) &&& m = (a &&& m) ^^^ (b &&& m) := by
  apply Nat.eq_of_testBit_eq
  intro i
  simp only [Nat.testBit_and, Nat.testBit_xor]
  cases a.testBit i <;> cases b.testBit i <;> cases m.testBit i <;> rfl

/-- The CRC bit step is linear over XOR. -/
theorem crcBit_xor (P a b : Nat) :
    crcBit P (a ^^^ b) = crcBit P a ^^^ crcBit P b := by
  unfold crcBit
  rw [xor_and_distrib, Nat.and_one_is_mod, Nat.and_one_is_mod]
  rcases Nat.mod_two_eq_zero_or_one a with h1 | h1 <;>
    rcases Nat.mod_two_eq_zero_or_one b with h2 | h2 <;>
    simp [h1, h2, xor_shiftRight_distrib] <;>
    · apply Nat.eq_of_testBit_eq
      intro i
      simp only [Nat.testBit_xor]
      cases Nat.testBit (a >>> 1) i <;> cases Nat.testBit (b >>> 1) i <;>
        cases Nat.testBit P i <;> rfl

/-- Eight CRC bit steps are linear over XOR. -/
theorem crcBits8_xor (P a b : Nat) :
    crcBits8 P (a ^^^ b) = crcBits8 P a ^^^ crcBits8 P b := by
  simp [crcBits8, crcBit_xor]

theorem crcBit_zero (P : Nat) : crcBit P 0 = 0 := by
  simp [crcBit]

/-- The CRC bit step keeps the state below the width bound `2 ^ (w + 1)`. -/
theorem crcBit_lt {P w : Nat} (hP : P < 2 ^ (w + 1)) {c : Nat}
    (hc : c < 2 ^ (w + 1)) : crcBit P c < 2 ^ (w + 1) := by
  have hsh : c >>> 1 ≤ c := by
    rw [Nat.shiftRight_eq_div_pow]
    exact Nat.div_le_self c (2 ^ 1)
  unfold crcBit
  split
  · exact Nat.xor_lt_two_pow (Nat.lt_of_le_of_lt hsh hc) hP
  · exact Nat.lt_of_le_of_lt hsh hc

/-- On nonzero states below `2 ^ (w + 1)` the CRC bit step never reaches 0,
because the polynomial has its top bit set (`2 ^ w ≤ P`). -/
theorem crcBit_ne_zero {P w : Nat} (hP1 : 2 ^ w ≤ P) {c : Nat}
    (hc : c < 2 ^ (w + 1)) (h0 : c ≠ 0) : crcBit P c ≠ 0 := by
  have hpow : 2 ^ (w + 1) = 2 * 2 ^ w := by
    rw [Nat.pow_succ, Nat.mul_comm]
  have hdiv : c >>> 1 = c / 2 := by
    rw [Nat.shiftRight_eq_div_pow, Nat.pow_one]
  have hmod := Nat.and_one_is_mod c
  have hdm := Nat.div_add_mod c 2
  unfold crcBit
  split
  · intro hz
    have heq : c >>> 1 = P := Nat.xor_eq_zero.mp hz
    rw [hdiv] at heq
    omega
  · intro hz
    rw [hdiv] at hz
    rename_i hcond
    rw [hmod] at hcond
    omega

theorem crcBits8_lt {P w : Nat} (hP : P < 2 ^ (w + 1)) {c : Nat}
    (hc : c < 2 ^ (w + 1)) : crcBits8 P c < 2 ^ (w + 1) := by
  unfold crcBits8
  exact crcBit_lt hP (crcBit_lt hP (crcBit_lt hP (crcBit_lt hP (crcBit_lt hP
    (crcBit_lt hP (crcBit_lt hP (crcBit_lt hP hc)))))))

theorem crcBits8_ne_zero {P w : Nat} (hP1 : 2 ^ w ≤ P) (hP2 : P < 2 ^ (w + 1))
    {c : Nat} (hc : c < 2 ^ (w + 1)) (h0 : c ≠ 0) : crcBits8 P c ≠ 0 := by
  have step : ∀ x : Nat, x < 2 ^ (w + 1) ∧ x ≠ 0 →
      crcBit P x < 2 ^ (w + 1) ∧ crcBit P x ≠ 0 :=
    fun x hx => ⟨crcBit_lt hP2 hx.1, crcBit_ne_zero hP1 hx.1 hx.2⟩
  unfold crcBits8
  exact (step _ (step _ (step _ (step _ (step _ (step _ (step _ (step _ ⟨hc, h0⟩)))))))).2

theorem crcByte_lt {P w : Nat} (hP : P < 2 ^ (w + 1)) {c b : Nat}
    (hc : c < 2 ^ (w + 1)) (hb : b < 2 ^ (w + 1)) :
    crcByte P c b < 2 ^ (w + 1) := by
  unfold crcByte
  exact crcBits8_lt hP (Nat.xor_lt_two_pow hc hb)

theorem crcFold_lt {P w : Nat} (hP : P < 2 ^ (w + 1)) {data : List Nat}
    (hdata : ∀ x ∈ data, x < 2 ^ (w + 1)) :
    ∀ {c : Nat}, c < 2 ^ (w + 1) → crcFold P c data < 2 ^ (w + 1) := by
  induction data with
  | nil => intro c hc; exact hc
  | cons b l ih =>
    intro c hc
    have hb : b < 2 ^ (w + 1) := hdata b (List.mem_cons_self b l)
    have hl : ∀ x ∈ l, x < 2 ^ (w + 1) := fun x hx => hdata x (List.mem_cons_of_mem b hx)
    exact ih hl (crcByte_lt hP hc hb)

/-- Distinct in-range CRC states remain distinct after absorbing the same
byte list: the per-byte difference propagation has trivial kernel. -/
theorem crcFold_diff_ne {P w : Nat} (hP1 : 2 ^ w ≤ P) (hP2 : P < 2 ^ (w + 1))
    {data : List Nat} (hdata : ∀ x ∈ data, x < 2 ^ (w + 1)) :
    ∀ {c₁ c₂ : Nat}, c₁ < 2 ^ (w + 1) → c₂ < 2 ^ (w + 1) → c₁ ≠ c₂ →
      crcFold P c₁ data ≠ crcFold P c₂ data := by
  induction data with
  | nil => intro c₁ c₂ _ _ hne; exact hne
  | cons b l ih =>
    intro c₁ c₂ h1 h2 hne
    have hb : b < 2 ^ (w + 1) := hdata b (List.mem_cons_self b l)
    have hl : ∀ x ∈ l, x < 2 ^ (w + 1) := fun x hx => hdata x (List.mem_cons_of_mem b hx)
    have hstep : crcByte P c₁ b ≠ crcByte P c₂ b := by
      intro heq
      have hx : crcByte P c₁ b ^^^ crcByte P c₂ b = 0 := Nat.xor_eq_zero.mpr heq
      have hdiff : crcByte P c₁ b ^^^ crcByte P c₂ b = crcBits8 P (c₁ ^^^ c₂) := by
        unfold crcByte
        rw [← crcBits8_xor]
        congr 1
        exact xor_rearrange c₁ c₂ b
      rw [hdiff] at hx
      exact crcBits8_ne_zero hP1 hP2 (Nat.xor_lt_two_pow h1 h2)
        (fun hz => hne (Nat.xor_eq_zero.mp hz)) hx
    exact ih hl (crcByte_lt hP2 h1 hb) (crcByte_lt hP2 h2 hb) hstep

/-- Changing one in-range byte of the input changes the CRC state. -/
theorem crcFold_single_diff {P w : Nat} (hP1 : 2 ^ w ≤ P) (hP2 : P < 2 ^ (w + 1))
    {pre suf : List Nat} {x y c : Nat} (hc : c < 2 ^ (w + 1))
    (hpre : ∀ z ∈ pre, z < 2 ^ (w + 1)) (hsuf : ∀ z ∈ suf, z < 2 ^ (w + 1))
    (hx : x < 2 ^ (w + 1)) (hy : y < 2 ^ (w + 1)) (hne : x ≠ y) :
    crcFold P c (pre ++ x :: suf) ≠ crcFold P c (pre ++ y :: suf) := by
  have happ : ∀ t : Nat, crcFold P c (pre ++ t :: suf)
      = crcFold P (crcByte P (crcFold P c pre) t) suf := by
    intro t
    simp [crcFold, List.foldl_append]
  rw [happ x, happ y]
  have hcp : crcFold P c pre < 2 ^ (w + 1) := crcFold_lt hP2 hpre hc
  have hstep : crcByte P (crcFold P c pre) x ≠ crcByte P (crcFold P c pre) y := by
    intro heq
    have hxz : crcByte P (crcFold P c pre) x ^^^ crcByte P (crcFold P c pre) y = 0 :=
      Nat.xor_eq_zero.mpr heq
    have hdiff : crcByte P (crcFold P c pre) x ^^^ crcByte P (crcFold P c pre) y
        = crcBits8 P (x ^^^ y) := by
      unfold crcByte
      rw [← crcBits8_xor]
      congr 1
      rw [Nat.xor_comm (crcFold P c pre) x, Nat.xor_comm (crcFold P c pre) y]
      exact xor_rearrange x y (crcFold P c pre)
    rw [hdiff] at hxz
    exact crcBits8_ne_zero hP1 hP2 (Nat.xor_lt_two_pow hx hy)
      (fun hz => hne (Nat.xor_eq_zero.mp hz)) hxz
  exact crcFold_diff_ne hP1 hP2 hsuf
    (crcByte_lt hP2 hcp hx) (crcByte_lt hP2 hcp hy) hstep

/-! ## CRC-32 / CRC-16 instances of the generic lemmas -/

theorem crc32fun_lt {data : List Nat} (hdata : ∀ x ∈ data, x < 256) :
    crc32fun data < 2 ^ 32 := by
  have h32 : (2 : Nat) ^ 32 = 2 ^ (31 + 1) := by norm_num
  have hP : CRC32_POLY < 2 ^ (31 + 1) := by norm_num [CRC32_POLY]
  have hdata' : ∀ x ∈ data, x < 2 ^ (31 + 1) := fun x hx =>
    Nat.lt_trans (hdata x hx) (by norm_num)
  have hinit : (0xFFFFFFFF : Nat) < 2 ^ (31 + 1) := by norm_num
  have hfold := crcFold_lt hP hdata' hinit
  rw [crc32fun, h32]
  exact Nat.xor_lt_two_pow hfold (by norm_num)

theorem crc16fun_lt {data : List Nat} (hdata : ∀ x ∈ data, x < 256) :
    crc16fun data < 2 ^ 16 := by
  have h16 : (2 : Nat) ^ 16 = 2 ^ (15 + 1) := by norm_num
  have hP : CRC16_POLY < 2 ^ (15 + 1) := by norm_num [CRC16_POLY]
  have hdata' : ∀ x ∈ data, x < 2 ^ (15 + 1) := fun x hx =>
    Nat.lt_trans (hdata x hx) (by norm_num)
  have hinit : (0 : Nat) < 2 ^ (15 + 1) := by norm_num
  rw [crc16fun, h16]
  exact crcFold_lt hP hdata' hinit

/-- CRC-32 detects any change of a single byte. -/
theorem crc32fun_single_diff {pre suf : List Nat} {x y : Nat}
    (hpre : ∀ z ∈ pre, z < 256) (hsuf : ∀ z ∈ suf, z < 256)
    (hx : x < 256) (hy : y < 256) (hne : x ≠ y) :
    crc32fun (pre ++ x :: suf) ≠ crc32fun (pre ++ y :: suf) := by
  have hP1 : 2 ^ 31 ≤ CRC32_POLY := by norm_num [CRC32_POLY]
  have hP2 : CRC32_POLY < 2 ^ (31 + 1) := by norm_num [CRC32_POLY]
  have hup : ∀ l : List Nat, (∀ z ∈ l, z < 256) → ∀ z ∈ l, z < 2 ^ (31 + 1) :=
    fun l hl z hz => Nat.lt_trans (hl z hz) (by norm_num)
  have hinit : (0xFFFFFFFF : Nat) < 2 ^ (31 + 1) := by norm_num
  have hfold := crcFold_single_diff hP1 hP2 hinit (hup pre hpre) (hup suf hsuf)
    (Nat.lt_trans hx (by norm_num)) (Nat.lt_trans hy (by norm_num)) hne
  intro h
  apply hfold
  have := congrArg (fun t => t ^^^ 0xFFFFFFFF) h
  simpa [crc32fun, Nat.xor_cancel_right] using this

/-- CRC-16 detects any change of a single byte. -/
theorem crc16fun_single_diff {pre suf : List Nat} {x y : Nat}
    (hpre : ∀ z ∈ pre, z < 256) (hsuf : ∀ z ∈ suf, z < 256)
    (hx : x < 256) (hy : y < 256) (hne : x ≠ y) :
    crc16fun (pre ++ x :: suf) ≠ crc16fun (pre ++ y :: suf) := by
  have hP1 : 2 ^ 15 ≤ CRC16_POLY := by norm_num [CRC16_POLY]
  have hP2 : CRC16_POLY < 2 ^ (15 + 1) := by norm_num [CRC16_POLY]
  have hup : ∀ l : List Nat, (∀ z ∈ l, z < 256) → ∀ z ∈ l, z < 2 ^ (15 + 1) :=
    fun l hl z hz => Nat.lt_trans (hl z hz) (by norm_num)
  have hinit : (0 : Nat) < 2 ^ (15 + 1) := by norm_num
  exact crcFold_single_diff hP1 hP2 hinit (hup pre hpre) (hup suf hsuf)
    (Nat.lt_trans hx (by norm_num)) (Nat.lt_trans hy (by norm_num)) hne

/-! ## Lemmas about `bin_pack` and `_bin_unpack` -/

@[simp] theorem length_bin_pack (n : Nat) : ∀ s, (bin_pack n s).length = s
  | 0 => rfl
  | s + 1 => by simp [bin_pack, length_bin_pack n s]

theorem bin_pack_mem_lt (n : Nat) : ∀ s, ∀ x ∈ bin_pack n s, x < 256 := by
  intro s
  induction s with
  | zero => intro x hx; simp [bin_pack] at hx
  | succ s ih =>
    intro x hx
    rcases List.mem_cons.mp hx with h | h
    · subst h
      have : (n >>> (s * 8)) &&& 0xff ≤ 0xff := Nat.and_le_right
      omega
    · exact ih x h

/-- Big-endian write followed by big-endian read recovers the value modulo
the field width. -/
theorem bin_unpack_bin_pack (n : Nat) : ∀ s, _bin_unpack (bin_pack n s) = n % 2 ^ (8 * s) := by
  intro s
  induction s with
  | zero => simp [bin_pack, _bin_unpack, Nat.mod_one]
  | succ s ih =>
    have hmask : (n >>> (s * 8)) &&& 0xff = n / 2 ^ (s * 8) % 2 ^ 8 := by
      have h255 : (0xff : Nat) = 2 ^ 8 - 1 := by norm_num
      rw [h255, Nat.and_pow_two_sub_one_eq_mod, Nat.shiftRight_eq_div_pow]
    have hlow : n % 2 ^ (8 * s) < 2 ^ (s * 8) := by
      rw [Nat.mul_comm 8 s]
      exact Nat.mod_lt _ (Nat.pos_pow_of_pos _ (by norm_num))
    calc _bin_unpack (bin_pack n (s + 1))
        = ((n >>> (s * 8)) &&& 0xff) <<< ((bin_pack n s).length * 8)
            ||| _bin_unpack (bin_pack n s) := rfl
      _ = (n / 2 ^ (s * 8) % 2 ^ 8) <<< (s * 8) ||| n % 2 ^ (8 * s) := by
          rw [hmask, ih, length_bin_pack]
      _ = (n / 2 ^ (s * 8) % 2 ^ 8) * 2 ^ (s * 8) ||| n % 2 ^ (8 * s) := by
          rw [Nat.shiftLeft_eq]
      _ = 2 ^ (s * 8) * (n / 2 ^ (s * 8) % 2 ^ 8) + n % 2 ^ (8 * s) := by
          rw [Nat.mul_comm]
          rw [← Nat.mul_add_lt_is_or hlow]
      _ = n % 2 ^ (8 * (s + 1)) := by
          have : (8 : Nat) * (s + 1) = 8 * s + 8 := by ring
          rw [this, Nat.pow_add, Nat.mod_mul, Nat.mul_comm 8 s]
          ring

/-! ## Structural lemmas about the header encoder -/

/-- On well-formed nibble version strings, `_pack_version` computes
`(major << 4) | (0xf & minor)`. -/
theorem pack_version_verString :
    ∀ a, a < 16 → ∀ b, b < 16 →
      _pack_version (verString a b) = [(a <<< 4) ||| (0xf &&& b)] := by
  decide

theorem length_pack_version (ver : List Nat) : (_pack_version ver).length = 1 := rfl

theorem length_pack_flags (fl : Nat × Nat × Bool) : (_pack_flags fl).length = 1 := rfl

theorem length_headerBytes (ver : List Nat) (fl : Nat × Nat × Bool)
    (lb tm mj mi ss su exh rs ru sq rq : Nat) :
    (headerBytes ver fl lb tm mj mi ss su exh rs ru sq rq).length = 38 := by
  simp [headerBytes, length_pack_version, length_pack_flags]

/-- In-range flag triples pack to a single byte. -/
theorem pack_flags_byte_lt {fa fb : Nat} (hfa : fa < 8) (hfb : fb < 8) (ff : Bool) :
    (fa <<< 5) ||| (fb <<< 2) ||| ((if ff then 1 else 0) <<< 1) < 256 := by
  have h256 : (256 : Nat) = 2 ^ 8 := by norm_num
  have h1 : fa <<< 5 < 2 ^ 8 := by
    rw [Nat.shiftLeft_eq]
    calc fa * 2 ^ 5 ≤ 7 * 2 ^ 5 := Nat.mul_le_mul_right _ (by omega)
      _ < 2 ^ 8 := by norm_num
  have h2 : fb <<< 2 < 2 ^ 8 := by
    rw [Nat.shiftLeft_eq]
    calc fb * 2 ^ 2 ≤ 7 * 2 ^ 2 := Nat.mul_le_mul_right _ (by omega)
      _ < 2 ^ 8 := by norm_num
  have h3 : ((if ff then 1 else 0) : Nat) <<< 1 < 2 ^ 8 := by
    rw [Nat.shiftLeft_eq]
    cases ff <;> norm_num
  rw [h256]
  exact Nat.or_lt_two_pow (Nat.or_lt_two_pow h1 h2) h3

/-- In-range nibbles pack to a single version byte. -/
theorem pack_version_byte_lt {va vb : Nat} (hva : va < 16) :
    (va <<< 4) ||| (0xf &&& vb) < 256 := by
  have h256 : (256 : Nat) = 2 ^ 8 := by norm_num
  have h1 : va <<< 4 < 2 ^ 8 := by
    rw [Nat.shiftLeft_eq]
    calc va * 2 ^ 4 ≤ 15 * 2 ^ 4 := Nat.mul_le_mul_right _ (by omega)
      _ < 2 ^ 8 := by norm_num
  have h2 : (0xf : Nat) &&& vb < 2 ^ 8 :=
    Nat.lt_of_le_of_lt Nat.and_le_left (by norm_num)
  rw [h256]
  exact Nat.or_lt_two_pow h1 h2

/-- All bytes of a header built from in-range values are below 256. -/
theorem headerBytes_mem_lt {va vb fa fb : Nat} {ff : Bool}
    (hva : va < 16) (hvb : vb < 16) (hfa : fa < 8) (hfb : fb < 8)
    (lb tm mj mi ss su exh rs ru sq rq : Nat) :
    ∀ x ∈ headerBytes (verString va vb) (fa, fb, ff) lb tm mj mi ss su exh rs ru sq rq,
      x < 256 := by
  intro x hx
  simp only [headerBytes, List.append_assoc, List.mem_append] at hx
  rcases hx with h | h | h | h | h | h | h | h | h | h | h | h | h
  · rw [pack_version_verString va hva vb hvb, List.mem_singleton] at h
    subst h
    exact pack_version_byte_lt hva
  · simp only [_pack_flags, List.mem_singleton] at h
    subst h
    exact pack_flags_byte_lt hfa hfb ff
  all_goals exact bin_pack_mem_lt _ _ x h

/-- `pack_header` on a fully supplied dictionary: success, with the CRC-16
of the first 38 bytes appended. -/
theorem pack_header_fullMap (ver : List Nat) (fl : Nat × Nat × Bool)
    (lb tm mj mi ss su exh rs ru sq rq : Nat) :
    pack_header (fullMap ver fl lb tm mj mi ss su exh rs ru sq rq)
      = .ok (headerBytes ver fl lb tm mj mi ss su exh rs ru sq rq
          ++ bin_pack (crc16fun (headerBytes ver fl lb tm mj mi ss su exh rs ru sq rq)) 2) := rfl

/-- Applying the defaults to a fully supplied dictionary changes nothing. -/
theorem autoHeader_fullMap (SEQUENCE now bodyLen : Nat) (ver : List Nat)
    (fl : Nat × Nat × Bool) (lb tm mj mi ss su exh rs ru sq rq : Nat) :
    autoHeader SEQUENCE now bodyLen (fullMap ver fl lb tm mj mi ss su exh rs ru sq rq)
      = fullMap ver fl lb tm mj mi ss su exh rs ru sq rq := rfl

/-! ## Elimination lemmas for `unpack` and `_unpack_header` -/

theorem _unpack_header_ok_elim {ph : List Nat} {h : HeaderFields}
    (hok : _unpack_header ph = .ok h) :
    ph.length = 40 ∧
      crc16fun (ph.take (ph.length - 2)) = _bin_unpack ((ph.drop 38).take 2) := by
  unfold _unpack_header at hok
  split at hok
  · simp at hok
  · split at hok
    · simp at hok
    · rename_i hlen hcrc
      refine ⟨?_, ?_⟩
      · simpa [HEADER_LENGTH] using Decidable.of_not_not hlen
      · exact Decidable.of_not_not hcrc

theorem unpack_ok_elim {p : List Nat} {h : HeaderFields} {b : List Nat}
    (hok : unpack p = .ok (h, b)) :
    crc32fun (midSlice p) = _bin_unpack (footSlice p) ∧
      _unpack_header (p.take HEADER_LENGTH) = .ok h ∧ b = midSlice p := by
  unfold unpack at hok
  split at hok
  · simp at hok
  · rename_i hcrc
    have hcrc' := Decidable.of_not_not hcrc
    split at hok
    · simp at hok
    · rename_i flds hu
      simp only [Except.ok.injEq, Prod.mk.injEq] at hok
      exact ⟨hcrc', by rw [hu, hok.1], hok.2.symm⟩

theorem bin_unpack_bin_pack_of_lt {n s : Nat} (h : n < 2 ^ (8 * s)) :
    _bin_unpack (bin_pack n s) = n := by
  rw [bin_unpack_bin_pack, Nat.mod_eq_of_lt h]

/-! ## Unfolding lemmas for the multi-packet loop -/

/-- One iteration of the `while length > MAX_PACKET_SIZE` loop. -/
theorem packMulti_step_big {auto : HeaderMap} {hdr : List Nat}
    (hph : pack_header auto = .ok hdr) (fuel S num : Nat) (rest : List Nat)
    {len : Nat} (h : MAX_PACKET_SIZE < len) :
    packMulti auto (fuel + 1) S num rest len
      = match packMulti auto fuel ((S + 1) % MAX_SEQ_NUMBER) (num + 1)
          (rest.drop MAX_PACKET_SIZE) (len - MAX_PACKET_SIZE) with
        | .error e => .error e
        | .ok (pkts, Sf) =>
          .ok ((hdr ++ (bin_pack num 4 ++ rest.take MAX_PACKET_SIZE)
              ++ bin_pack (crc32fun (bin_pack num 4 ++ rest.take MAX_PACKET_SIZE))
                FOOTER_LENGTH) :: pkts, Sf) := by
  simp only [packMulti, hph]
  rw [if_pos h]

/-- The final `if length > 0` block emitting the last fragment. -/
theorem packMulti_step_last {auto : HeaderMap} {hdr : List Nat}
    (hph : pack_header auto = .ok hdr) (fuel S num : Nat) (rest : List Nat)
    {len : Nat} (h1 : ¬ MAX_PACKET_SIZE < len) (h2 : 0 < len) :
    packMulti auto (fuel + 1) S num rest len
      = .ok ([hdr ++ (bin_pack num 4 ++ rest.take MAX_PACKET_SIZE)
          ++ bin_pack (crc32fun (bin_pack num 4 ++ rest.take MAX_PACKET_SIZE))
            FOOTER_LENGTH], (S + 1) % MAX_SEQ_NUMBER) := by
  simp only [packMulti, hph]
  rw [if_neg h1, if_pos h2]

/-- A failing `pack_header` aborts the loop at its first iteration. -/
theorem packMulti_step_error {auto : HeaderMap} {e : String}
    (hph : pack_header auto = .error e) (fuel S num : Nat) (rest : List Nat)
    {len : Nat} (h2 : 0 < len) :
    packMulti auto (fuel + 1) S num rest len = .error e := by
  simp only [packMulti, hph]
  by_cases h : MAX_PACKET_SIZE < len
  · rw [if_pos h]
  · rw [if_neg h, if_pos h2]

/-- `pack` on a short body takes the single-packet branch. -/
theorem pack_single_eq {S now : Nat} {user : HeaderMap} {body : List Nat}
    (h : body.length < MAX_PACKET_SIZE) :
    pack S now user body
      = match pack_header (autoHeader S now body.length user) with
        | .error e => .error e
        | .ok header =>
          .ok ([header ++ body ++ bin_pack (crc32fun body) FOOTER_LENGTH],
            (S + 1) % MAX_SEQ_NUMBER) := by
  simp only [pack]
  rw [if_pos h]

/-- `pack` on a long body enters the multi-packet loop. -/
theorem pack_multi_eq {S now : Nat} {user : HeaderMap} {body : List Nat}
    (h : ¬ body.length < MAX_PACKET_SIZE) :
    pack S now user body
      = packMulti (autoHeader S now body.length user) body.length S 0 body body.length := by
  simp only [pack]
  rw [if_neg h]

/-! ## Claim theorems -/

/-- Claim C2: for every header override map supplying all required fields
(with in-range version nibbles and flag priorities) and every body of
length strictly below 1024 bytes, `pack` yields exactly one packet, and
`unpack` of that packet succeeds and returns the body bit-for-bit. -/
theorem claim_C2_single_packet_roundtrip (seq now va vb fa fb : Nat) (ff : Bool)
    (lb tm mj mi ss su exh rs ru sq rq : Nat) (body : List Nat)
    (hva : va < 16) (hvb : vb < 16) (hfa : fa < 8) (hfb : fb < 8)
    (hbytes : ∀ x ∈ body, x < 256) (hlen : body.length < 1024) :
    ∃ hdr flds,
      pack_header (fullMap (verString va vb) (fa, fb, ff) lb tm mj mi ss su exh rs ru sq rq)
        = .ok hdr ∧
      pack seq now (fullMap (verString va vb) (fa, fb, ff) lb tm mj mi ss su exh rs ru sq rq) body
        = .ok ([hdr ++ body ++ bin_pack (crc32fun body) FOOTER_LENGTH],
            (seq + 1) % MAX_SEQ_NUMBER) ∧
      unpack (hdr ++ body ++ bin_pack (crc32fun body) FOOTER_LENGTH) = .ok (flds, body) := by
  have hhb_len := length_headerBytes (verString va vb) (fa, fb, ff) lb tm mj mi ss su exh rs ru sq rq
  have hhb_lt := @headerBytes_mem_lt va vb fa fb ff hva hvb hfa hfb lb tm mj mi ss su exh rs ru sq rq
  set hb := headerBytes (verString va vb) (fa, fb, ff) lb tm mj mi ss su exh rs ru sq rq with hb_def
  set hdr := hb ++ bin_pack (crc16fun hb) 2 with hdr_def
  have hdr_len : hdr.length = 40 := by
    simp [hdr_def, hhb_len]
  -- the pack equation
  have hpack : pack seq now (fullMap (verString va vb) (fa, fb, ff) lb tm mj mi ss su exh rs ru sq rq) body
      = .ok ([hdr ++ body ++ bin_pack (crc32fun body) FOOTER_LENGTH],
          (seq + 1) % MAX_SEQ_NUMBER) := by
    simp only [pack, autoHeader_fullMap, pack_header_fullMap, MAX_PACKET_SIZE]
    rw [if_pos hlen]
  -- footer and body slices of the packet
  have hlen_hb : (hdr ++ body).length = 40 + body.length := by
    simp [hdr_len]
  have hfoot : footSlice ((hdr ++ body) ++ bin_pack (crc32fun body) FOOTER_LENGTH)
      = bin_pack (crc32fun body) FOOTER_LENGTH := by
    unfold footSlice
    have h1 : ((hdr ++ body) ++ bin_pack (crc32fun body) FOOTER_LENGTH).length - FOOTER_LENGTH
        = (hdr ++ body).length := by
      simp [FOOTER_LENGTH]
      omega
    rw [h1, List.drop_left]
  have hmid : midSlice ((hdr ++ body) ++ bin_pack (crc32fun body) FOOTER_LENGTH) = body := by
    unfold midSlice
    have h1 : ((hdr ++ body) ++ bin_pack (crc32fun body) FOOTER_LENGTH).length - FOOTER_LENGTH
        = (hdr ++ body).length := by
      simp [FOOTER_LENGTH]
      omega
    rw [h1, List.take_left, HEADER_LENGTH, List.drop_left' hdr_len]
  have htake : ((hdr ++ body) ++ bin_pack (crc32fun body) FOOTER_LENGTH).take HEADER_LENGTH
      = hdr := by
    rw [HEADER_LENGTH, List.take_append_of_le_length (by omega),
      List.take_append_of_le_length (by omega), List.take_of_length_le (by omega)]
  have hfootval : _bin_unpack (bin_pack (crc32fun body) FOOTER_LENGTH) = crc32fun body := by
    have h32 : crc32fun body < 2 ^ (8 * FOOTER_LENGTH) := by
      have := crc32fun_lt hbytes
      norm_num [FOOTER_LENGTH]
      omega
    exact bin_unpack_bin_pack_of_lt h32
  -- header decodes successfully
  have htake38 : hdr.take (40 - 2) = hb := by
    rw [hdr_def]
    exact List.take_left' hhb_len
  have hdrop38 : (hdr.drop 38).take 2 = bin_pack (crc16fun hb) 2 := by
    rw [hdr_def, List.drop_left' hhb_len, List.take_of_length_le (by simp)]
  have hcrcval : _bin_unpack (bin_pack (crc16fun hb) 2) = crc16fun hb := by
    have h16 : crc16fun hb < 2 ^ (8 * 2) := by
      have := crc16fun_lt hhb_lt
      norm_num
      omega
    exact bin_unpack_bin_pack_of_lt h16
  have huh : ∃ flds, _unpack_header hdr = .ok flds := by
    unfold _unpack_header
    rw [hdr_len, HEADER_LENGTH]
    rw [if_neg (by norm_num)]
    rw [htake38, hdrop38, hcrcval]
    rw [if_neg (by simp)]
    exact ⟨_, rfl⟩
  obtain ⟨flds, hflds⟩ := huh
  have hunp : unpack ((hdr ++ body) ++ bin_pack (crc32fun body) FOOTER_LENGTH)
      = .ok (flds, body) := by
    unfold unpack
    rw [hmid, hfoot, hfootval]
    rw [if_neg (by simp)]
    rw [htake, hflds]
  exact ⟨hdr, flds, pack_header_fullMap _ _ _ _ _ _ _ _ _ _ _ _ _, hpack, hunp⟩

/-- Witness for claim C2 at a concrete input: version "0.3", flags
(1, 1, true), body "hi". -/
theorem claim_C2_witness :
    ∃ hdr flds,
      pack_header (fullMap (verString 0 3) (1, 1, true) 2 0 1 2 0 0 0 0 0 0 0) = .ok hdr ∧
      pack 0 0 (fullMap (verString 0 3) (1, 1, true) 2 0 1 2 0 0 0 0 0 0 0) [104, 105]
        = .ok ([hdr ++ [104, 105] ++ bin_pack (crc32fun [104, 105]) FOOTER_LENGTH],
            (0 + 1) % MAX_SEQ_NUMBER) ∧
      unpack (hdr ++ [104, 105] ++ bin_pack (crc32fun [104, 105]) FOOTER_LENGTH)
        = .ok (flds, [104, 105]) :=
  claim_C2_single_packet_roundtrip 0 0 0 3 1 1 true 2 0 1 2 0 0 0 0 0 0 0 [104, 105]
    (by decide) (by decide) (by decide) (by decide) (by decide) (by decide)

/-- Claim C1 (code bug): on a 2048-byte body, `pack` emits two fragments
whose headers both carry `snd_seq` bytes `[0, 0, 0]` even though the
global sequence counter finishes at 2 — the counter advances once per
emitted packet, but the re-encoded header never picks up the new value,
so the fragments do not carry fresh, pairwise distinct `snd_seq` values
as claimed. -/
theorem claim_C1_same_snd_seq_per_fragment :
    sndSeqView (pack 0 1000 (onlyTypes 1 2) (List.replicate 1025 7))
      = some ([[0, 0, 0], [0, 0, 0]], 2) := by
  have hlen : (List.replicate 1025 7 : List Nat).length = 1025 :=
    List.length_replicate 1025 7
  have hph := pack_header_fullMap VERSION (1, 1, true) 1025 1000 1 2 0 0 0 0 0 0 0
  have hauto : autoHeader 0 1000 1025 (onlyTypes 1 2)
      = fullMap VERSION (1, 1, true) 1025 1000 1 2 0 0 0 0 0 0 0 := rfl
  rw [pack_multi_eq (by rw [hlen]; norm_num [MAX_PACKET_SIZE])]
  rw [hlen, hauto, show (1025 : Nat) = 1024 + 1 from rfl,
    packMulti_step_big hph 1024 0 0 (List.replicate 1025 7)
      (by norm_num [MAX_PACKET_SIZE])]
  rw [show (1024 : Nat) = 1023 + 1 from rfl,
    packMulti_step_last hph 1023 ((0 + 1) % MAX_SEQ_NUMBER) (0 + 1)
      ((List.replicate 1025 7).drop MAX_PACKET_SIZE)
      (by norm_num [MAX_PACKET_SIZE]) (by norm_num [MAX_PACKET_SIZE])]
  rfl

/-- Counterexample for claim C3: `unpack` of the 1-byte buffer `[0]` does
not fail with a dedicated packet-length error — no such check exists — but
with the header-length `IndexError` (the empty middle slice passes the
CRC-32 footer comparison `0 = 0`). -/
theorem claim_C3_counterexample :
    unpack [0] = .error (.headerLength 1) := by
  rfl

/-- Claim C3 as amended: `unpack` performs no packet-length precheck; a
buffer shorter than 40 bytes fails with either the body-CRC error or the
header-length error, never a dedicated invalid-packet-length error. -/
theorem claim_C3_amended_short_buffer (p : List Nat) (hlen : p.length < 40) :
    unpack p = .error .bodyCRC ∨ unpack p = .error (.headerLength p.length) := by
  unfold unpack
  by_cases hc : crc32fun (midSlice p) = _bin_unpack (footSlice p)
  · right
    rw [if_neg (fun h => h hc)]
    have htl : (p.take HEADER_LENGTH).length = p.length := by
      simp [HEADER_LENGTH]
      omega
    unfold _unpack_header
    rw [if_pos (by rw [htl, HEADER_LENGTH]; omega), htl]
  · left
    rw [if_pos hc]

/-- Witness for the amended claim C3 at the concrete buffer `[1]`. -/
theorem claim_C3_witness :
    unpack [1] = .error .bodyCRC ∨ unpack [1] = .error (.headerLength 1) :=
  claim_C3_amended_short_buffer [1] (by decide)

/-- Claim C4 (code bug): on the distinctive header dictionary `c4Header`,
the bytes `pack_header` places at the offsets the module's own
`HEADER_LOCATIONS` table assigns to `snd_session` (10), `ext_header` (20)
and `r_uniqid` (24) are, respectively, the `ext_header` value 0xBBBB, the
first two `r_uniqid` bytes, and a mix of the `r_uniqid` tail with
`snd_session` and `resp_session` — not the encodings of the fields the
table (and the spec's offset table) names. -/
theorem claim_C4_layout_bug :
    (pack_header c4Header).toOption.map (fun h =>
        ((h.drop (HEADER_LOCATIONS .snd_session)).take 2,
          (h.drop (HEADER_LOCATIONS .ext_header)).take 2,
          (h.drop (HEADER_LOCATIONS .r_uniqid)).take 8))
      = some ([0xBB, 0xBB], [0x11, 0x22], [0x55, 0x66, 0x77, 0x88, 0xAA, 0xAA, 0, 0]) ∧
    ([0xBB, 0xBB] : List Nat) ≠ bin_pack 0xAAAA 2 ∧
    ([0x11, 0x22] : List Nat) ≠ bin_pack 0xBBBB 2 ∧
    ([0x55, 0x66, 0x77, 0x88, 0xAA, 0xAA, 0, 0] : List Nat) ≠ bin_pack 0x1122334455667788 8 := by
  refine ⟨by rfl, by decide, by decide, by decide⟩

theorem and_lor_self (x y : Nat) : x &&& (x ||| y) = x := by
  apply Nat.eq_of_testBit_eq
  intro i
  simp only [Nat.testBit_and, Nat.testBit_lor]
  cases x.testBit i <;> cases y.testBit i <;> rfl

theorem le_lor_left (x y : Nat) : x ≤ x ||| y := by
  calc x = x &&& (x ||| y) := (and_lor_self x y).symm
    _ ≤ x ||| y := Nat.and_le_right

/-- Counterexample for claim C5: packing the out-of-range flags
`(9, 0, false)` does not equal packing the truncated `(9 mod 8, 0, false)`
and the emitted codepoint 288 is not one byte. -/
theorem claim_C5_counterexample :
    ¬ (_pack_flags (9, 0, false) = _pack_flags (9 % 8, 0 % 8, false) ∧
        ∀ x ∈ _pack_flags (9, 0, false), x < 256) := by
  decide

/-- Claim C5 as amended: `_pack_flags` emits the single codepoint
`(a << 5) | (b << 2) | (f << 1)`; for in-range priorities this is one
byte, but out-of-range high bits are preserved rather than truncated, so
for `a ≥ 8` the result differs from packing `(a mod 8, b mod 8, f)`. -/
theorem claim_C5_amended_no_truncation (a b : Nat) (f : Bool) :
    _pack_flags (a, b, f) = [(a <<< 5) ||| (b <<< 2) ||| ((if f then 1 else 0) <<< 1)] ∧
    (a < 8 → b < 8 → ∀ x ∈ _pack_flags (a, b, f), x < 256) ∧
    (8 ≤ a → _pack_flags (a, b, f) ≠ _pack_flags (a % 8, b % 8, f)) := by
  refine ⟨rfl, ?_, ?_⟩
  · intro ha hb x hx
    simp only [_pack_flags, List.mem_singleton] at hx
    subst hx
    exact pack_flags_byte_lt ha hb f
  · intro ha heq
    simp only [_pack_flags, List.cons.injEq, and_true] at heq
    have hlow : ((a % 8) <<< 5) ||| ((b % 8) <<< 2) ||| ((if f then 1 else 0) <<< 1) < 256 :=
      pack_flags_byte_lt (Nat.mod_lt a (by omega)) (Nat.mod_lt b (by omega)) f
    have hhi : 256 ≤ (a <<< 5) ||| (b <<< 2) ||| ((if f then 1 else 0) <<< 1) := by
      have h1 : 256 ≤ a <<< 5 := by
        rw [Nat.shiftLeft_eq]
        calc (256 : Nat) = 8 * 2 ^ 5 := by norm_num
          _ ≤ a * 2 ^ 5 := Nat.mul_le_mul_right _ ha
      calc (256 : Nat) ≤ a <<< 5 := h1
        _ ≤ (a <<< 5) ||| (b <<< 2) := le_lor_left _ _
        _ ≤ (a <<< 5) ||| (b <<< 2) ||| ((if f then 1 else 0) <<< 1) := le_lor_left _ _
    omega

/-- Witness for the amended claim C5: `(3, 5, true)` packs to one byte,
while `(9, 0, false)` does not pack like its truncation. -/
theorem claim_C5_witness :
    (∀ x ∈ _pack_flags (3, 5, true), x < 256) ∧
      _pack_flags (9, 0, false) ≠ _pack_flags (9 % 8, 0 % 8, false) :=
  ⟨(claim_C5_amended_no_truncation 3 5 true).2.1 (by decide) (by decide),
    (claim_C5_amended_no_truncation 9 0 false).2.2 (by decide)⟩

/-- Claim C8: for nibble versions "a.b", decoding after encoding returns
the original string exactly when the major part is 0 — the decoder leaves
the major nibble un-shifted (`v & 0xF0`), so every major in [1, 15] comes
back as a different string. -/
theorem claim_C8_version_asymmetry :
    ∀ a, a < 16 → ∀ b, b < 16 →
      (_unpack_version (_pack_version (verString a b)) = verString a b ↔ a = 0) := by
  decide

/-- When `pack_header` succeeds, the multi-packet loop always succeeds. -/
theorem packMulti_ok_of_ok {auto : HeaderMap} {hdr : List Nat}
    (hph : pack_header auto = .ok hdr) :
    ∀ fuel S num rest len, ∃ ps Sf,
      packMulti auto fuel S num rest len = .ok (ps, Sf) := by
  intro fuel
  induction fuel with
  | zero => intro S num rest len; exact ⟨[], S, rfl⟩
  | succ f ih =>
    intro S num rest len
    by_cases h : MAX_PACKET_SIZE < len
    · obtain ⟨ps, Sf, hrec⟩ := ih ((S + 1) % MAX_SEQ_NUMBER) (num + 1)
        (rest.drop MAX_PACKET_SIZE) (len - MAX_PACKET_SIZE)
      rw [packMulti_step_big hph f S num rest h, hrec]
      exact ⟨_, _, rfl⟩
    · by_cases h2 : 0 < len
      · rw [packMulti_step_last hph f S num rest h h2]
        exact ⟨_, _, rfl⟩
      · refine ⟨[], S, ?_⟩
        simp only [packMulti]
        rw [if_neg h, if_neg h2]

/-- A positive-length body makes the loop emit at least one packet. -/
theorem packMulti_ok_ne_nil {auto : HeaderMap} {hdr : List Nat}
    (hph : pack_header auto = .ok hdr) (fuel S num : Nat) (rest : List Nat)
    {len : Nat} (hlen : 0 < len) (hfuel : 0 < fuel) :
    ∃ ps Sf, packMulti auto fuel S num rest len = .ok (ps, Sf) ∧ ps ≠ [] := by
  cases fuel with
  | zero => omega
  | succ f =>
    by_cases h : MAX_PACKET_SIZE < len
    · obtain ⟨ps, Sf, hrec⟩ := packMulti_ok_of_ok hph f ((S + 1) % MAX_SEQ_NUMBER)
        (num + 1) (rest.drop MAX_PACKET_SIZE) (len - MAX_PACKET_SIZE)
      rw [packMulti_step_big hph f S num rest h, hrec]
      exact ⟨_, _, rfl, by simp⟩
    · rw [packMulti_step_last hph f S num rest h hlen]
      exact ⟨_, _, rfl, by simp⟩

/-- A failing `pack_header` aborts the loop whenever there is work to do. -/
theorem packMulti_error_pos {auto : HeaderMap} {e : String}
    (hph : pack_header auto = .error e) (fuel S num : Nat) (rest : List Nat)
    {len : Nat} (hlen : 0 < len) (hfuel : 0 < fuel) :
    packMulti auto fuel S num rest len = .error e := by
  cases fuel with
  | zero => omega
  | succ f => exact packMulti_step_error hph f S num rest hlen

/-- Claim C10: the facade auto-fills every required header field except
`msg_mj_type` and `msg_mi_type`; `pack` with a map supplying only those
two fields yields its packets, while a map missing either fails with the
`KeyError` naming that field and yields no packet. -/
theorem claim_C10_auto_defaults (seq now mj mi : Nat) (body : List Nat) :
    (∃ pkts s, pack seq now (onlyTypes mj mi) body = .ok (pkts, s) ∧ pkts ≠ []) ∧
    (∀ m : HeaderMap, m.msg_mj_type = none →
        pack seq now m body = .error "msg_mj_type") ∧
    (∀ m : HeaderMap, ∀ v, m.msg_mj_type = some v → m.msg_mi_type = none →
        pack seq now m body = .error "msg_mi_type") := by
  refine ⟨?_, ?_, ?_⟩
  · have hauto : autoHeader seq now body.length (onlyTypes mj mi)
        = fullMap VERSION (1, 1, true) body.length now mj mi 0 0 0 0 0 seq 0 := rfl
    have hph := pack_header_fullMap VERSION (1, 1, true) body.length now mj mi 0 0 0 0 0 seq 0
    by_cases h : body.length < MAX_PACKET_SIZE
    · rw [pack_single_eq h, hauto, hph]
      exact ⟨_, _, rfl, by simp⟩
    · have hlen : 0 < body.length := by
        unfold MAX_PACKET_SIZE at h
        omega
      rw [pack_multi_eq h, hauto]
      obtain ⟨ps, Sf, hok, hne⟩ :=
        packMulti_ok_ne_nil hph body.length seq 0 body hlen hlen
      exact ⟨ps, Sf, hok, hne⟩
  · intro m hmj
    have hph : pack_header (autoHeader seq now body.length m) = .error "msg_mj_type" := by
      simp only [pack_header, autoHeader, hmj]
    by_cases h : body.length < MAX_PACKET_SIZE
    · rw [pack_single_eq h, hph]
    · have hlen : 0 < body.length := by
        unfold MAX_PACKET_SIZE at h
        omega
      rw [pack_multi_eq h]
      exact packMulti_error_pos hph body.length seq 0 body hlen hlen
  · intro m v hmj hmi
    have hph : pack_header (autoHeader seq now body.length m) = .error "msg_mi_type" := by
      simp only [pack_header, autoHeader, hmj, hmi]
    by_cases h : body.length < MAX_PACKET_SIZE
    · rw [pack_single_eq h, hph]
    · have hlen : 0 < body.length := by
        unfold MAX_PACKET_SIZE at h
        omega
      rw [pack_multi_eq h]
      exact packMulti_error_pos hph body.length seq 0 body hlen hlen

/-- Witness for claim C10 at a concrete input. -/
theorem claim_C10_witness :
    (∃ pkts s, pack 0 0 (onlyTypes 1 2) [104] = .ok (pkts, s) ∧ pkts ≠ []) ∧
    pack 0 0 { msg_mi_type := some 2 } [104] = .error "msg_mj_type" ∧
    pack 0 0 { msg_mj_type := some 1 } [104] = .error "msg_mi_type" :=
  ⟨(claim_C10_auto_defaults 0 0 1 2 [104]).1,
    (claim_C10_auto_defaults 0 0 1 2 [104]).2.1 { msg_mi_type := some 2 } rfl,
    (claim_C10_auto_defaults 0 0 1 2 [104]).2.2 { msg_mj_type := some 1 } 1 rfl rfl⟩

/-- Claim C7: a 2500-byte body yields exactly three packets, whose
fragment bodies carry the big-endian 4-byte indices 0, 1, 2 followed by
chunks of lengths 1024, 1024 and 452, each packet footer being the CRC-32
of its own fragment body. -/
theorem claim_C7_fragmentation_arithmetic (seq now mj mi : Nat) (body : List Nat)
    (hlen : body.length = 2500) :
    ∃ hdr,
      pack_header (autoHeader seq now 2500 (onlyTypes mj mi)) = .ok hdr ∧
      pack seq now (onlyTypes mj mi) body = .ok
        ([hdr ++ (bin_pack 0 4 ++ body.take 1024)
            ++ bin_pack (crc32fun (bin_pack 0 4 ++ body.take 1024)) FOOTER_LENGTH,
          hdr ++ (bin_pack 1 4 ++ (body.drop 1024).take 1024)
            ++ bin_pack (crc32fun (bin_pack 1 4 ++ (body.drop 1024).take 1024)) FOOTER_LENGTH,
          hdr ++ (bin_pack 2 4 ++ ((body.drop 1024).drop 1024).take 1024)
            ++ bin_pack (crc32fun (bin_pack 2 4 ++ ((body.drop 1024).drop 1024).take 1024))
              FOOTER_LENGTH],
          (seq + 3) % MAX_SEQ_NUMBER) ∧
      bin_pack 0 4 = [0, 0, 0, 0] ∧ bin_pack 1 4 = [0, 0, 0, 1] ∧
      bin_pack 2 4 = [0, 0, 0, 2] ∧
      (body.take 1024).length = 1024 ∧ ((body.drop 1024).take 1024).length = 1024 ∧
      (((body.drop 1024).drop 1024).take 1024).length = 452 := by
  have hauto : autoHeader seq now 2500 (onlyTypes mj mi)
      = fullMap VERSION (1, 1, true) 2500 now mj mi 0 0 0 0 0 seq 0 := rfl
  have hph := pack_header_fullMap VERSION (1, 1, true) 2500 now mj mi 0 0 0 0 0 seq 0
  refine ⟨_, hauto ▸ hph, ?_, rfl, rfl, rfl, ?_, ?_, ?_⟩
  · rw [pack_multi_eq (by rw [hlen]; norm_num [MAX_PACKET_SIZE]), hlen, hauto]
    rw [show (2500 : Nat) = 2499 + 1 from rfl,
      packMulti_step_big hph 2499 seq 0 body (by norm_num [MAX_PACKET_SIZE])]
    rw [show (2499 + 1 - MAX_PACKET_SIZE : Nat) = 1475 + 1 from rfl,
      show (2499 : Nat) = 2498 + 1 from rfl,
      packMulti_step_big hph 2498 ((seq + 1) % MAX_SEQ_NUMBER) (0 + 1)
        (body.drop MAX_PACKET_SIZE) (by norm_num [MAX_PACKET_SIZE])]
    rw [show (1475 + 1 - MAX_PACKET_SIZE : Nat) = 452 from rfl,
      show (2498 : Nat) = 2497 + 1 from rfl,
      packMulti_step_last hph 2497 (((seq + 1) % MAX_SEQ_NUMBER + 1) % MAX_SEQ_NUMBER)
        (0 + 1 + 1) ((body.drop MAX_PACKET_SIZE).drop MAX_PACKET_SIZE)
        (by norm_num [MAX_PACKET_SIZE]) (by norm_num)]
    have hseq : (((seq + 1) % MAX_SEQ_NUMBER + 1) % MAX_SEQ_NUMBER + 1) % MAX_SEQ_NUMBER
        = (seq + 3) % MAX_SEQ_NUMBER := by
      simp only [MAX_SEQ_NUMBER]
      omega
    rw [hseq]
    norm_num [MAX_PACKET_SIZE]
  · simp [hlen]
  · simp [hlen]
  · simp [hlen]

/-- Witness for claim C7 at a concrete 2500-byte body. -/
theorem claim_C7_witness :
    ∃ hdr,
      pack_header (autoHeader 0 0 2500 (onlyTypes 1 2)) = .ok hdr ∧
      pack 0 0 (onlyTypes 1 2) (List.replicate 2500 9) = .ok
        ([hdr ++ (bin_pack 0 4 ++ (List.replicate 2500 9).take 1024)
            ++ bin_pack (crc32fun (bin_pack 0 4 ++ (List.replicate 2500 9).take 1024))
              FOOTER_LENGTH,
          hdr ++ (bin_pack 1 4 ++ ((List.replicate 2500 9).drop 1024).take 1024)
            ++ bin_pack (crc32fun (bin_pack 1 4 ++ ((List.replicate 2500 9).drop 1024).take 1024))
              FOOTER_LENGTH,
          hdr ++ (bin_pack 2 4 ++ (((List.replicate 2500 9).drop 1024).drop 1024).take 1024)
            ++ bin_pack
                (crc32fun (bin_pack 2 4 ++ (((List.replicate 2500 9).drop 1024).drop 1024).take 1024))
              FOOTER_LENGTH],
          (0 + 3) % MAX_SEQ_NUMBER) ∧
      bin_pack 0 4 = [0, 0, 0, 0] ∧ bin_pack 1 4 = [0, 0, 0, 1] ∧
      bin_pack 2 4 = [0, 0, 0, 2] ∧
      ((List.replicate 2500 9 : List Nat).take 1024).length = 1024 ∧
      (((List.replicate 2500 9 : List Nat).drop 1024).take 1024).length = 1024 ∧
      ((((List.replicate 2500 9 : List Nat).drop 1024).drop 1024).take 1024).length = 452 :=
  claim_C7_fragmentation_arithmetic 0 0 1 2 (List.replicate 2500 9)
    (List.length_replicate 2500 9)

/-- Claim C9: `get_header` depends only on the first 40 bytes: whenever a
packet's header decodes (CRC-16 verified), any packet sharing those 40
bytes — even one whose body or footer is corrupted so that `unpack` fails —
still yields the same decoded header fields. -/
theorem claim_C9_get_header_ignores_body (p q : List Nat) (h : HeaderFields)
    (e : PacketError) (hsame : p.take HEADER_LENGTH = q.take HEADER_LENGTH)
    (hok : get_header p = .ok h) (hfail : unpack q = .error e) :
    get_header q = .ok h := by
  unfold get_header at hok ⊢
  rw [← hsame]
  exact hok

set_option maxRecDepth 8000 in
/-- Witness for claim C9: the valid packet for body "hi" with its footer's
last byte corrupted still yields its header via `get_header`, although
`unpack` fails on it with the body-CRC error. -/
theorem claim_C9_witness :
    get_header [3, 38, 0, 2, 0, 0, 0, 0, 1, 2, 0, 0, 0, 0, 0, 0, 0, 0, 0, 0,
        0, 0, 0, 0, 0, 0, 0, 0, 0, 0, 0, 0, 0, 0, 0, 0, 0, 0, 234, 158,
        104, 105, 216, 147, 42, 173]
      = .ok
        { prot_ver := [48, 46, 51], flags := (1, 1, true), len_body := 2,
          time := 0, msg_mj_type := 1, msg_mi_type := 2, ext_header := 0,
          s_uniqid := 0, r_uniqid := 0, snd_session := 0, resp_session := 0,
          snd_seq := 0, resp_seq := 0 } :=
  claim_C9_get_header_ignores_body
    [3, 38, 0, 2, 0, 0, 0, 0, 1, 2, 0, 0, 0, 0, 0, 0, 0, 0, 0, 0,
      0, 0, 0, 0, 0, 0, 0, 0, 0, 0, 0, 0, 0, 0, 0, 0, 0, 0, 234, 158,
      104, 105, 216, 147, 42, 172]
    [3, 38, 0, 2, 0, 0, 0, 0, 1, 2, 0, 0, 0, 0, 0, 0, 0, 0, 0, 0,
      0, 0, 0, 0, 0, 0, 0, 0, 0, 0, 0, 0, 0, 0, 0, 0, 0, 0, 234, 158,
      104, 105, 216, 147, 42, 173]
    { prot_ver := [48, 46, 51], flags := (1, 1, true), len_body := 2,
      time := 0, msg_mj_type := 1, msg_mi_type := 2, ext_header := 0,
      s_uniqid := 0, r_uniqid := 0, snd_session := 0, resp_session := 0,
      snd_seq := 0, resp_seq := 0 }
    .bodyCRC (by rfl) (by rfl) (by rfl)

/-! ## Helper lemmas for tamper detection (claim C6) -/

theorem flip_ne {x t : Nat} (ht : t ≠ 0) : x ^^^ t ≠ x := by
  intro h
  apply ht
  have h2 := congrArg (fun z => x ^^^ z) h
  simpa [Nat.xor_cancel_left, Nat.xor_self] using h2

theorem two_pow_lt_256 {k : Nat} (hk : k < 8) : 2 ^ k < 256 := by
  calc (2 : Nat) ^ k < 2 ^ 8 := Nat.pow_lt_pow_right (by norm_num) hk
    _ = 256 := by norm_num

theorem mem_midSlice {p : List Nat} {z : Nat} (hz : z ∈ midSlice p) : z ∈ p :=
  List.mem_of_mem_take (List.mem_of_mem_drop hz)

/-- Changing one in-range byte of a byte list changes its CRC-32. -/
theorem crc32fun_set_ne {l : List Nat} {j v : Nat} (hj : j < l.length)
    (hl : ∀ z ∈ l, z < 256) (hv : v < 256) (hne : v ≠ l[j]) :
    crc32fun (l.set j v) ≠ crc32fun l := by
  have h2 : l = l.take j ++ l[j] :: l.drop (j + 1) := by
    conv_lhs => rw [← List.take_append_drop j l]
    rw [List.drop_eq_getElem_cons hj]
  rw [List.set_eq_take_cons_drop v hj]
  have key : crc32fun (l.take j ++ v :: l.drop (j + 1))
      ≠ crc32fun (l.take j ++ l[j] :: l.drop (j + 1)) :=
    crc32fun_single_diff (fun z hz => hl z (List.mem_of_mem_take hz))
      (fun z hz => hl z (List.mem_of_mem_drop hz)) hv
      (hl _ (List.getElem_mem hj)) hne
  rwa [← h2] at key

/-- Changing one in-range byte of a byte list changes its CRC-16. -/
theorem crc16fun_set_ne {l : List Nat} {j v : Nat} (hj : j < l.length)
    (hl : ∀ z ∈ l, z < 256) (hv : v < 256) (hne : v ≠ l[j]) :
    crc16fun (l.set j v) ≠ crc16fun l := by
  have h2 : l = l.take j ++ l[j] :: l.drop (j + 1) := by
    conv_lhs => rw [← List.take_append_drop j l]
    rw [List.drop_eq_getElem_cons hj]
  rw [List.set_eq_take_cons_drop v hj]
  have key : crc16fun (l.take j ++ v :: l.drop (j + 1))
      ≠ crc16fun (l.take j ++ l[j] :: l.drop (j + 1)) :=
    crc16fun_single_diff (fun z hz => hl z (List.mem_of_mem_take hz))
      (fun z hz => hl z (List.mem_of_mem_drop hz)) hv
      (hl _ (List.getElem_mem hj)) hne
  rwa [← h2] at key

/-- Overwriting a header byte leaves the body slice unchanged. -/
theorem midSlice_set_lt {p : List Nat} {i : Nat} (v : Nat) (hi : i < HEADER_LENGTH) :
    midSlice (p.set i v) = midSlice p := by
  unfold midSlice
  rw [List.length_set, List.set_take, List.drop_set, if_pos hi]

/-- Overwriting a byte at or past offset 40 rewrites the body slice at the
shifted position. -/
theorem midSlice_set_ge {p : List Nat} {i : Nat} (v : Nat) (hi : HEADER_LENGTH ≤ i) :
    midSlice (p.set i v) = (midSlice p).set (i - HEADER_LENGTH) v := by
  unfold midSlice
  rw [List.length_set, List.set_take, List.drop_set, if_neg (Nat.not_lt.mpr hi)]

/-- Overwriting a byte before the footer leaves the footer unchanged. -/
theorem footSlice_set {p : List Nat} {i : Nat} (v : Nat)
    (hi : i + FOOTER_LENGTH < p.length) :
    footSlice (p.set i v) = footSlice p := by
  unfold footSlice
  rw [List.length_set, List.drop_set, if_pos (by omega)]

theorem length_midSlice (p : List Nat) :
    (midSlice p).length = p.length - FOOTER_LENGTH - HEADER_LENGTH := by
  simp [midSlice]

/-- The body slice reads packet bytes at offset `HEADER_LENGTH`. -/
theorem midSlice_getD {p : List Nat} {i : Nat} (h1 : HEADER_LENGTH ≤ i)
    (h2 : i + FOOTER_LENGTH < p.length) :
    (midSlice p).getD (i - HEADER_LENGTH) 0 = p.getD i 0 := by
  have hmlen := length_midSlice p
  have hF : FOOTER_LENGTH = 4 := rfl
  have hH : HEADER_LENGTH = 40 := rfl
  have hj : i - HEADER_LENGTH < (midSlice p).length := by omega
  have hip : i < p.length := by omega
  rw [List.getD_eq_getElem _ _ hj, List.getD_eq_getElem _ _ hip]
  unfold midSlice at hj ⊢
  simp only [List.getElem_drop, List.getElem_take]
  congr 1
  omega

/-- Claim C6: for a well-formed packet (one `unpack` accepts, of byte
values, length at least 44), flipping any single bit of any body byte
makes `unpack` fail with the body-integrity (CRC-32) error, and flipping
any single bit of any of the first 38 header bytes makes it fail with the
header-integrity (CRC-16) error. -/
theorem claim_C6_tamper_detection (p : List Nat) (h : HeaderFields) (b : List Nat)
    (i k : Nat) (hok : unpack p = .ok (h, b)) (hplen : 44 ≤ p.length)
    (hbytes : ∀ x ∈ p, x < 256) (hk : k < 8) :
    (HEADER_LENGTH ≤ i → i + FOOTER_LENGTH < p.length →
      unpack (p.set i (p.getD i 0 ^^^ 2 ^ k)) = .error .bodyCRC) ∧
    (i < 38 →
      unpack (p.set i (p.getD i 0 ^^^ 2 ^ k)) = .error .headerCRC) := by
  obtain ⟨hcrc, hdr_ok, hbmid⟩ := unpack_ok_elim hok
  obtain ⟨hphlen, hcrc16⟩ := _unpack_header_ok_elim hdr_ok
  have hH : HEADER_LENGTH = 40 := rfl
  have hF : FOOTER_LENGTH = 4 := rfl
  have h256 : (256 : Nat) = 2 ^ 8 := by norm_num
  have hkpos : (2 : Nat) ^ k ≠ 0 := by positivity
  have h2k : (2 : Nat) ^ k < 256 := two_pow_lt_256 hk
  constructor
  · intro hi1 hi2
    have hip : i < p.length := by omega
    have holdlt : p.getD i 0 < 256 := by
      rw [List.getD_eq_getElem _ _ hip]
      exact hbytes _ (List.getElem_mem hip)
    have hvlt : p.getD i 0 ^^^ 2 ^ k < 256 := by
      rw [h256] at holdlt h2k ⊢
      exact Nat.xor_lt_two_pow holdlt h2k
    have hj : i - HEADER_LENGTH < (midSlice p).length := by
      rw [length_midSlice]
      omega
    have hgd : (midSlice p).getD (i - HEADER_LENGTH) 0 = p.getD i 0 :=
      midSlice_getD hi1 hi2
    have hne : p.getD i 0 ^^^ 2 ^ k ≠ (midSlice p)[i - HEADER_LENGTH] := by
      rw [← List.getD_eq_getElem _ _ hj, hgd]
      exact flip_ne hkpos
    have hmem : ∀ z ∈ midSlice p, z < 256 := fun z hz => hbytes z (mem_midSlice hz)
    have hcrcne := crc32fun_set_ne hj hmem hvlt hne
    unfold unpack
    rw [midSlice_set_ge _ hi1, footSlice_set _ hi2]
    rw [if_pos (by rw [← hcrc]; exact hcrcne)]
  · intro hi
    have hlt40 : i < HEADER_LENGTH := by omega
    have hip : i < p.length := by omega
    have hifoot : i + FOOTER_LENGTH < p.length := by omega
    have holdlt : p.getD i 0 < 256 := by
      rw [List.getD_eq_getElem _ _ hip]
      exact hbytes _ (List.getElem_mem hip)
    have hvlt : p.getD i 0 ^^^ 2 ^ k < 256 := by
      rw [h256] at holdlt h2k ⊢
      exact Nat.xor_lt_two_pow holdlt h2k
    rw [hphlen] at hcrc16
    have htt : (p.take HEADER_LENGTH).take (40 - 2) = p.take 38 := by
      rw [List.take_take]
      norm_num [HEADER_LENGTH]
    rw [htt] at hcrc16
    have hj38 : i < (p.take 38).length := by
      rw [List.length_take]
      omega
    have hgd38 : (p.take 38)[i] = p.getD i 0 := by
      rw [List.getD_eq_getElem _ _ hip]
      simp only [List.getElem_take]
    have hne : p.getD i 0 ^^^ 2 ^ k ≠ (p.take 38)[i] := by
      rw [hgd38]
      exact flip_ne hkpos
    have hmem38 : ∀ z ∈ p.take 38, z < 256 := fun z hz =>
      hbytes z (List.mem_of_mem_take hz)
    have hcrcne := crc16fun_set_ne hj38 hmem38 hvlt hne
    unfold unpack
    rw [midSlice_set_lt _ hlt40, footSlice_set _ hifoot]
    rw [if_neg (fun hno => hno hcrc)]
    rw [List.set_take]
    have huh : _unpack_header ((p.take HEADER_LENGTH).set i (p.getD i 0 ^^^ 2 ^ k))
        = .error .headerCRC := by
      unfold _unpack_header
      rw [List.length_set, hphlen]
      rw [if_neg (by norm_num [HEADER_LENGTH])]
      have e1 : ((p.take HEADER_LENGTH).set i (p.getD i 0 ^^^ 2 ^ k)).take (40 - 2)
          = (p.take 38).set i (p.getD i 0 ^^^ 2 ^ k) := by
        rw [List.set_take, htt]
      have e2 : (((p.take HEADER_LENGTH).set i (p.getD i 0 ^^^ 2 ^ k)).drop 38).take 2
          = ((p.take HEADER_LENGTH).drop 38).take 2 := by
        rw [List.drop_set, if_pos (by omega)]
      rw [e1, e2]
      rw [if_pos (by rw [← hcrc16]; exact hcrcne)]
    rw [huh]

set_option maxRecDepth 8000 in
/-- Witness for claim C6: on the valid packet for body "hi", flipping bit 0
of the byte at offset 41 (inside the body) trips the CRC-32 check, and
flipping bit 0 of the byte at offset 5 (inside the header's first 38
bytes) trips the CRC-16 check. -/
theorem claim_C6_witness :
    unpack (([3, 38, 0, 2, 0, 0, 0, 0, 1, 2, 0, 0, 0, 0, 0, 0, 0, 0, 0, 0,
        0, 0, 0, 0, 0, 0, 0, 0, 0, 0, 0, 0, 0, 0, 0, 0, 0, 0, 234, 158,
        104, 105, 216, 147, 42, 172] : List Nat).set 41
        (([3, 38, 0, 2, 0, 0, 0, 0, 1, 2, 0, 0, 0, 0, 0, 0, 0, 0, 0, 0,
          0, 0, 0, 0, 0, 0, 0, 0, 0, 0, 0, 0, 0, 0, 0, 0, 0, 0, 234, 158,
          104, 105, 216, 147, 42, 172] : List Nat).getD 41 0 ^^^ 2 ^ 0))
      = .error .bodyCRC ∧
    unpack (([3, 38, 0, 2, 0, 0, 0, 0, 1, 2, 0, 0, 0, 0, 0, 0, 0, 0, 0, 0,
        0, 0, 0, 0, 0, 0, 0, 0, 0, 0, 0, 0, 0, 0, 0, 0, 0, 0, 234, 158,
        104, 105, 216, 147, 42, 172] : List Nat).set 5
        (([3, 38, 0, 2, 0, 0, 0, 0, 1, 2, 0, 0, 0, 0, 0, 0, 0, 0, 0, 0,
          0, 0, 0, 0, 0, 0, 0, 0, 0, 0, 0, 0, 0, 0, 0, 0, 0, 0, 234, 158,
          104, 105, 216, 147, 42, 172] : List Nat).getD 5 0 ^^^ 2 ^ 0))
      = .error .headerCRC :=
  ⟨(claim_C6_tamper_detection
      [3, 38, 0, 2, 0, 0, 0, 0, 1, 2, 0, 0, 0, 0, 0, 0, 0, 0, 0, 0,
        0, 0, 0, 0, 0, 0, 0, 0, 0, 0, 0, 0, 0, 0, 0, 0, 0, 0, 234, 158,
        104, 105, 216, 147, 42, 172]
      { prot_ver := [48, 46, 51], flags := (1, 1, true), len_body := 2,
        time := 0, msg_mj_type := 1, msg_mi_type := 2, ext_header := 0,
        s_uniqid := 0, r_uniqid := 0, snd_session := 0, resp_session := 0,
        snd_seq := 0, resp_seq := 0 }
      [104, 105] 41 0 (by rfl) (by decide) (by decide) (by decide)).1
      (by decide) (by decide),
    (claim_C6_tamper_detection
      [3, 38, 0, 2, 0, 0, 0, 0, 1, 2, 0, 0, 0, 0, 0, 0, 0, 0, 0, 0,
        0, 0, 0, 0, 0, 0, 0, 0, 0, 0, 0, 0, 0, 0, 0, 0, 0, 0, 234, 158,
        104, 105, 216, 147, 42, 172]
      { prot_ver := [48, 46, 51], flags := (1, 1, true), len_body := 2,
        time := 0, msg_mj_type := 1, msg_mi_type := 2, ext_header := 0,
        s_uniqid := 0, r_uniqid := 0, snd_session := 0, resp_session := 0,
        snd_seq := 0, resp_seq := 0 }
      [104, 105] 5 0 (by rfl) (by decide) (by decide) (by decide)).2
      (by decide)⟩

/-- Witness for claim C8: "0.3" round-trips, "1.3" does not. -/
theorem claim_C8_witness :
    _unpack_version (_pack_version (verString 0 3)) = verString 0 3 ∧
      ¬ _unpack_version (_pack_version (verString 1 3)) = verString 1 3 :=
  ⟨(claim_C8_version_asymmetry 0 (by decide) 3 (by decide)).mpr rfl,
    fun h => Nat.one_ne_zero ((claim_C8_version_asymmetry 1 (by decide) 3 (by decide)).mp h)⟩

end Packet
